import Mathlib

/-!
Shallow embedding of the PayEye pipeline.

Source files:
* `attached_assets/json_creation_1750868780384.py` — the Structured
  Extractor / Normalizer (`normalize_key`, `search_key`, `create_JSON`).
* `attached_assets/ocr_1750868780385.py` — the Text Extractor
  (`extract_text`, `perform_OCR`).

Modelling conventions:
* JSON values are the inductive `Json`; Python dicts are association
  lists in document order (CPython dicts preserve insertion order, and
  `json.loads` produces key-unique dicts, on which the operations below
  agree with CPython semantics).
* Numbers are exact rationals `ℚ`; the only arithmetic any claim
  evaluates is on values that are exactly representable as binary
  doubles, where Python float arithmetic coincides with `ℚ`.
* Character classes (`\W`, `\d`, `str.strip`, `str.lower`) are modelled
  at their ASCII meaning; every input appearing in the spec and the
  claims is ASCII.
* Fallible Python code (exceptions) is modelled with `Except String`.
-/

/-- A JSON value, as produced by `json.loads` on the model response. -/
inductive Json : Type where
  | null : Json
  | bool (b : Bool) : Json
  | num (q : ℚ) : Json
  | str (s : String) : Json
  | arr (items : List Json) : Json
  | obj (fields : List (String × Json)) : Json

/-- Python `d.get(k)` / `d[k]` on an insertion-ordered dict: the value at
the (unique) key `k`, if present. -/
def dictGet (d : List (String × Json)) (k : String) : Option Json :=
  match d with
  | [] => none
  | (k', v) :: rest => if k' = k then some v else dictGet rest k

/-- Python `k in d`. -/
def hasKey (d : List (String × Json)) (k : String) : Bool :=
  match d with
  | [] => false
  | (k', _) :: rest => k' = k || hasKey rest k

/-- Python `d[k] = v`: replaces the value in place when the key is
present (keeping its position), appends at the end otherwise. -/
def dictSet (d : List (String × Json)) (k : String) (v : Json) : List (String × Json) :=
  match d with
  | [] => [(k, v)]
  | (k', w) :: rest => if k' = k then (k, v) :: rest else (k', w) :: dictSet rest k v

/-- The dict left behind by Python `d.pop(k, ...)`: all entries at other
keys, in order. -/
def dictPop (d : List (String × Json)) (k : String) : List (String × Json) :=
  match d with
  | [] => []
  | (k', v) :: rest => if k' = k then dictPop rest k else (k', v) :: dictPop rest k

/-- The whitespace characters removed by Python `str.strip()` (ASCII). -/
def isPySpace (c : Char) : Bool :=
  c = ' ' || c = '\t' || c = '\n' || c = '\r' || c = '\x0b' || c = '\x0c'

/-- Python `str.strip()`. -/
def pyStrip (s : String) : String :=
  ⟨((s.toList.dropWhile isPySpace).reverse.dropWhile isPySpace).reverse⟩

/-- Python `str.lower()` (ASCII). -/
def pyLower (s : String) : String :=
  ⟨s.toList.map Char.toLower⟩

/-- A character matched by the regex class `\w` (ASCII). -/
def isWordChar (c : Char) : Bool :=
  c.isAlphanum || c = '_'

/-- `normalize_key` (json_creation line 22): `re.sub(r'\W+', '', key).lower()` —
drop every non-word character, then lowercase. -/
def normalize_key (key : String) : String :=
  pyLower ⟨key.toList.filter isWordChar⟩

mutual
/-- The inner `recursive_search` of `search_key` (json_creation lines 28-36),
specialized to a pre-normalized target: on a dict, append each value whose
key normalizes to the target and recurse into every value; on a list,
recurse into every item; scalars contribute nothing. -/
def recursive_search (t : String) : Json → List Json
  | Json.obj fields => searchFields t fields
  | Json.arr items => searchItems t items
  | _ => []

/-- `recursive_search` over the entries of a dict, in order. -/
def searchFields (t : String) : List (String × Json) → List Json
  | [] => []
  | (k, v) :: rest =>
      (if normalize_key k = t then [v] else []) ++ recursive_search t v ++ searchFields t rest

/-- `recursive_search` over the items of a list, in order. -/
def searchItems (t : String) : List Json → List Json
  | [] => []
  | x :: rest => recursive_search t x ++ searchItems t rest
end

/-- `search_key` (json_creation lines 25-38). -/
def search_key (key_to_search : String) (json_data : Json) : List Json :=
  recursive_search (normalize_key key_to_search) json_data

/-- `re.sub(r"[^\d.\-]", "", s)` (json_creation line 154): keep only
digits, the decimal point, and the minus sign. -/
def stripToNumChars (s : String) : String :=
  ⟨s.toList.filter (fun c => c.isDigit || c = '.' || c = '-')⟩

/-- The natural number denoted by a list of decimal digits (empty ↦ 0). -/
def digitsToNat (ds : List Char) : ℕ :=
  ds.foldl (fun a c => 10 * a + (c.toNat - 48)) 0

/-- Python `float(s)` on a string already restricted to the characters
`0-9`, `.` and `-` (the residue of `stripToNumChars`): an optional
leading minus sign, then digits with at most one decimal point and at
least one digit; anything else raises. Values are exact rationals —
every value any claim evaluates is exactly representable as a binary
double, so Python float arithmetic agrees. -/
def pyFloatOfClean (s : String) : Option ℚ :=
  match s.toList with
  | [] => none
  | cs =>
    let neg := cs.head? = some '-'
    let body := if neg then cs.tail else cs
    if !(body.all fun c => c.isDigit || c = '.') then none
    else if 2 ≤ body.count '.' then none
    else
      let ip := body.takeWhile (fun c => c ≠ '.')
      let fp := (body.dropWhile (fun c => c ≠ '.')).drop 1
      if ip.isEmpty && fp.isEmpty then none
      else
        let n : ℤ := digitsToNat ip * 10 ^ fp.length + digitsToNat fp
        some (mkRat (if neg then -n else n) (10 ^ fp.length))

/-- The accumulation loop of json_creation lines 150-158: clean each
collected value, skip it when it is empty after cleaning or fails to
parse as a float, and sum the rest. -/
def manualTotalGross (vals : List String) : ℚ :=
  vals.foldl
    (fun acc gp =>
      let value := stripToNumChars gp
      if value ≠ "" then
        match pyFloatOfClean value with
        | some x => acc + x
        | none => acc
      else acc)
    0

mutual
/-- Python `repr()` of a JSON value, used for elements inside the
`str()` rendering of containers. Strings are quoted exactly as Python
does for quote-free ASCII text; numbers render in a simplified form
(no claim evaluates `str()` on a non-string value). -/
def pyRepr : Json → String
  | Json.str s => "'" ++ s ++ "'"
  | Json.null => "None"
  | Json.bool b => if b then "True" else "False"
  | Json.num q => if q.den = 1 then toString q.num else toString q
  | Json.arr items => "[" ++ String.intercalate ", " (pyReprList items) ++ "]"
  | Json.obj fields => "\x7b" ++ String.intercalate ", " (pyReprFields fields) ++ "\x7d"

/-- `repr` of the items of a list. -/
def pyReprList : List Json → List String
  | [] => []
  | x :: rest => pyRepr x :: pyReprList rest

/-- `repr` of the entries of a dict. -/
def pyReprFields : List (String × Json) → List String
  | [] => []
  | (k, v) :: rest => ("'" ++ k ++ "': " ++ pyRepr v) :: pyReprFields rest
end

/-- Python `str()` of a JSON value (json_creation line 154 applies it to
every collected gross-pay value): the identity on strings, `repr`-like
on everything else. -/
def pyStr : Json → String
  | Json.str s => s
  | j => pyRepr j

/-- Python falsiness of `record.get("Agency")` (json_creation line 142):
a missing key, `None`, `False`, zero, the empty string, the empty list
and the empty dict are falsy. -/
def jsonFalsy : Option Json → Bool
  | none => true
  | some Json.null => true
  | some (Json.bool b) => !b
  | some (Json.num q) => q = 0
  | some (Json.str s) => s = ""
  | some (Json.arr items) => items.isEmpty
  | some (Json.obj fields) => fields.isEmpty

/-- `record.get("Agency")` of a record value: the field of a dict,
`none` otherwise. -/
def agencyValue (r : Json) : Option Json :=
  match r with
  | Json.obj fs => dictGet fs "Agency"
  | _ => none

/-- `record.get("Person Name", "")` followed by `.strip().lower()`
(json_creation line 139): a missing key defaults to `""`; a non-string
value has no `.strip` method and raises `AttributeError`. -/
def personNameOf (fs : List (String × Json)) : Except String String :=
  match dictGet fs "Person Name" with
  | none => Except.ok ""
  | some (Json.str s) => Except.ok s
  | some _ => Except.error "Person Name value has no strip method"

/-- Whether a record is dropped by the person-name filter (json_creation
lines 139-141): its person name, stripped and lowercased, is `"other"`
or `"others"`. -/
def isOtherRecord : Json → Bool
  | Json.obj fs =>
      match dictGet fs "Person Name" with
      | some (Json.str s) =>
          pyLower (pyStrip s) = "other" || pyLower (pyStrip s) = "others"
      | _ => false
  | _ => false

/-- The agency back-fill of json_creation lines 142-143: when
`record.get("Agency")` is falsy, set it to the resolved agency name. -/
def backfillAgency (agencyName : String) : Json → Json
  | Json.obj fs =>
      if jsonFalsy (dictGet fs "Agency") then Json.obj (dictSet fs "Agency" (Json.str agencyName))
      else Json.obj fs
  | j => j

/-- The record-cleaning loop of json_creation lines 137-144: drop every
record whose person name normalizes to other/others, back-fill a falsy
agency field with the resolved agency name, keep order. A record that
is not a dict, or whose person name is a non-string value, raises. -/
def filterRecords (agencyName : String) : List Json → Except String (List Json)
  | [] => Except.ok []
  | r :: rest =>
    match r with
    | Json.obj fs =>
      match personNameOf fs with
      | Except.error m => Except.error m
      | Except.ok pn =>
        if pyLower (pyStrip pn) = "other" || pyLower (pyStrip pn) = "others" then
          filterRecords agencyName rest
        else
          match filterRecords agencyName rest with
          | Except.error m => Except.error m
          | Except.ok rest' => Except.ok (backfillAgency agencyName (Json.obj fs) :: rest')
    | _ => Except.error "record is not a mapping"

/-- json_creation lines 160-162: `entities["records"][0].get("Agency", "").strip()`,
then fail when the result is empty. A non-string agency value has no
`.strip` method and raises. -/
def realAgencyOf (r : Json) : Except String String :=
  match r with
  | Json.obj fs =>
    match dictGet fs "Agency" with
    | none => Except.error "Missing agency name in record."
    | some (Json.str s) =>
        if pyStrip s = "" then Except.error "Missing agency name in record."
        else Except.ok (pyStrip s)
    | some _ => Except.error "record agency value has no strip method"
  | _ => Except.error "record is not a mapping"

/-- The body of the per-document `try` block of `create_JSON`
(json_creation lines 132-173) after the top-level shape validation:
given the validated top-level field list, the value of `"records"` and
the entries of the `"Agency Name"` mapping, run the per-document
pipeline and return the final entities dict that is persisted and
recorded, or the exception message. -/
def afterValidation (fields : List (String × Json)) (recsJ : Json)
    (ab : List (String × Json)) : Except String Json :=
  match ab with
  | [] =>
      -- `next(iter({}))` raises `StopIteration`
      Except.error "StopIteration on empty Agency Name mapping"
  | (agency_name, _) :: _ =>
    if normalize_key agency_name = "others" then
      Except.error "Agency name was extracted as 'Others', which is not allowed."
    else
      match recsJ with
      | Json.arr items =>
        match filterRecords agency_name items with
        | Except.error m => Except.error m
        | Except.ok clean =>
          let total := manualTotalGross ((search_key "Gross Pay" (Json.arr clean)).map pyStr)
          match clean with
          | [] =>
              -- `entities["records"][0]` on the emptied list (line 160)
              Except.error "list index out of range"
          | first :: _ =>
            match realAgencyOf first with
            | Except.error m => Except.error m
            | Except.ok ragency =>
              match (dictGet ab agency_name).getD (Json.obj []) with
              | Json.obj sf =>
                  Except.ok (Json.obj (dictSet
                    (dictPop (dictSet fields "records" (Json.arr clean)) "Agency Name")
                    ragency
                    (Json.obj (dictSet sf "Manual Total Gross Pays" (Json.num total)))))
              | _ =>
                  -- `summary_data["Manual Total Gross Pays"] = ...` on a non-dict
                  Except.error "summary data does not support item assignment"
      | _ =>
          -- iterating a non-list `records` value ends in a per-record failure
          Except.error "records value is not a list"

/-- One document's processing inside the `try` block of `create_JSON`
(json_creation lines 127-173), starting from the parsed model response:
validate the top-level shape (a dict containing `"records"` and
`"Agency Name"`), then run `afterValidation`. A non-dict `"Agency Name"`
value fails (in CPython, at `next(iter(...))` or at the later `.get`). -/
def processDoc (entities : Json) : Except String Json :=
  match entities with
  | Json.obj fields =>
    match dictGet fields "records", dictGet fields "Agency Name" with
    | some recsJ, some (Json.obj ab) => afterValidation fields recsJ ab
    | some _, some _ => Except.error "Agency Name value is not a mapping"
    | _, _ => Except.error "Invalid response structure from OpenAI."
  | _ => Except.error "Invalid response structure from OpenAI."

/-- The error marker stored for a failed document (json_creation
line 177). -/
def errorMarker (m : String) : Json :=
  Json.obj [("error", Json.str m)]

/-- One input `.txt` file of the Structured Extractor batch: its file
name, its stem, and the outcome of reading it (the read at json_creation
lines 122-123 sits outside the per-document `try` block, so it may
fail). -/
structure TxtFile where
  name : String
  stem : String
  content : Except String String

/-- Everything inside the per-document `try` block: the model
round-trip `extract_entities_from_text` (prompt construction, model
call, fence stripping, `json.loads` — collapsed into the black-box
`model`, which may fail), then `processDoc`. -/
def docOutcome (model : String → Except String Json) (text : String) : Except String Json :=
  match model text with
  | Except.error m => Except.error m
  | Except.ok entities => processDoc entities

/-- The entry `results[file.name]` receives for a file whose read
succeeded: the full entities dict on success, the error marker on
failure. -/
def resultOf (model : String → Except String Json) (f : TxtFile) : String × Json :=
  match f.content with
  | Except.ok text =>
    match docOutcome model text with
    | Except.ok out => (f.name, out)
    | Except.error m => (f.name, errorMarker m)
  | Except.error m => (f.name, errorMarker m)

/-- The JSON file written for a file whose read succeeded: `<stem>.json`
with the entities dict on success, nothing on failure. -/
def writeOf (model : String → Except String Json) (f : TxtFile) : Option (String × Json) :=
  match f.content with
  | Except.ok text =>
    match docOutcome model text with
    | Except.ok out => some (f.stem ++ ".json", out)
    | Except.error _ => none
  | Except.error _ => none

/-- The loop of `create_JSON` (json_creation lines 120-177) with the
results and written files accumulated so far: each file is read (a read
failure propagates and aborts the batch, losing the results mapping),
then processed inside the `try`, appending either the result and its
output file or the error marker. -/
def create_JSON_loop (model : String → Except String Json)
    (acc : List (String × Json) × List (String × Json)) :
    List TxtFile → Except String (List (String × Json) × List (String × Json))
  | [] => Except.ok acc
  | f :: rest =>
    match f.content with
    | Except.error m => Except.error m
    | Except.ok text =>
      match docOutcome model text with
      | Except.ok out =>
          create_JSON_loop model
            (acc.1 ++ [(f.name, out)], acc.2 ++ [(f.stem ++ ".json", out)]) rest
      | Except.error m =>
          create_JSON_loop model (acc.1 ++ [(f.name, errorMarker m)], acc.2) rest

/-- `create_JSON` (json_creation lines 108-179) on a batch of `.txt`
files, with the model round-trip abstracted: returns the results
mapping (file name to entities-or-error-marker) and the list of written
`<stem>.json` files, or the uncaught exception of a failed file read. -/
def create_JSON (model : String → Except String Json) (files : List TxtFile) :
    Except String (List (String × Json) × List (String × Json)) :=
  create_JSON_loop model ([], []) files

/-- One entry of the Text Extractor's source directory: its stem, its
suffix as computed by `pathlib` (the final dotted extension, dot
included), and whether it is a regular file. -/
structure SrcFile where
  stem : String
  suffix : String
  isFile : Bool

/-- `extract_text` (ocr lines 9-17), with the three external extraction
routines (`extract_from_image`, `extract_from_pdf`,
`extract_from_excel`) as black-box parameters: dispatch on the
lowercased suffix; any other extension yields the empty string. -/
def extract_text (img pdf xls : SrcFile → String) (f : SrcFile) : String :=
  let ext := pyLower f.suffix
  if ext = ".png" || ext = ".jpg" || ext = ".jpeg" then img f
  else if ext = ".pdf" then pdf f
  else if ext = ".xls" || ext = ".xlsx" then xls f
  else ""

/-- `perform_OCR` (ocr lines 48-56): for every regular file of the
source directory, in order, extract its text and, when non-empty, write
it to `<stem>.txt`; the result is the list of written files with their
contents. -/
def perform_OCR (img pdf xls : SrcFile → String) (files : List SrcFile) :
    List (String × String) :=
  files.filterMap (fun f =>
    if f.isFile then
      let raw := extract_text img pdf xls f
      if raw ≠ "" then some (f.stem ++ ".txt", raw) else none
    else none)

/-- A value `v` is reachable in a JSON structure under a key whose
normalized form is `t`: either directly as the value of such a key in a
mapping, or inside some mapping value, or inside some sequence item —
at any depth. -/
inductive ReachKey (t : String) : Json → Json → Prop where
  | here {fields : List (String × Json)} {k : String} {v : Json} :
      (k, v) ∈ fields → normalize_key k = t → ReachKey t (Json.obj fields) v
  | inObj {fields : List (String × Json)} {k : String} {w v : Json} :
      (k, w) ∈ fields → ReachKey t w v → ReachKey t (Json.obj fields) v
  | inArr {items : List Json} {x v : Json} :
      x ∈ items → ReachKey t x v → ReachKey t (Json.arr items) v

theorem sizeOf_lt_of_mem_fields {fields : List (String × Json)} {k : String} {w : Json}
    (h : (k, w) ∈ fields) : sizeOf w < sizeOf (Json.obj fields) := by
  have h1 := List.sizeOf_lt_of_mem h
  simp only [Json.obj.sizeOf_spec]
  simp only [Prod.mk.sizeOf_spec] at h1
  omega

theorem sizeOf_lt_of_mem_items {items : List Json} {x : Json}
    (h : x ∈ items) : sizeOf x < sizeOf (Json.arr items) := by
  have h1 := List.sizeOf_lt_of_mem h
  simp only [Json.arr.sizeOf_spec]
  omega

theorem mem_searchFields_iff (t : String) (fs : List (String × Json)) (v : Json) :
    v ∈ searchFields t fs ↔
      ∃ k w, (k, w) ∈ fs ∧ ((normalize_key k = t ∧ w = v) ∨ v ∈ recursive_search t w) := by
  induction fs with
  | nil => simp [searchFields]
  | cons p rest ih =>
    obtain ⟨k, w⟩ := p
    simp only [searchFields, List.mem_append, ih, List.mem_cons]
    constructor
    · rintro ((h | h) | ⟨k', w', hm, hrest⟩)
      · refine ⟨k, w, Or.inl rfl, ?_⟩
        by_cases hn : normalize_key k = t
        · simp [hn] at h; exact Or.inl ⟨hn, h.symm⟩
        · simp [hn] at h
      · exact ⟨k, w, Or.inl rfl, Or.inr h⟩
      · exact ⟨k', w', Or.inr hm, hrest⟩
    · rintro ⟨k', w', (heq | hm), (⟨hn, hw⟩ | hr)⟩
      · cases heq; subst hw; exact Or.inl (Or.inl (by simp [hn]))
      · cases heq; exact Or.inl (Or.inr hr)
      · exact Or.inr ⟨k', w', hm, Or.inl ⟨hn, hw⟩⟩
      · exact Or.inr ⟨k', w', hm, Or.inr hr⟩

theorem mem_searchItems_iff (t : String) (xs : List Json) (v : Json) :
    v ∈ searchItems t xs ↔ ∃ x, x ∈ xs ∧ v ∈ recursive_search t x := by
  induction xs with
  | nil => simp [searchItems]
  | cons x rest ih =>
    simp only [searchItems, List.mem_append, ih, List.mem_cons]
    constructor
    · rintro (h | ⟨y, hm, hy⟩)
      · exact ⟨x, Or.inl rfl, h⟩
      · exact ⟨y, Or.inr hm, hy⟩
    · rintro ⟨y, (rfl | hm), hy⟩
      · exact Or.inl hy
      · exact Or.inr ⟨y, hm, hy⟩

theorem reachKey_shape {t : String} {j v : Json} (h : ReachKey t j v) :
    (∃ fs, j = Json.obj fs) ∨ (∃ xs, j = Json.arr xs) := by
  cases h with
  | here hm hn => exact Or.inl ⟨_, rfl⟩
  | inObj hm hr => exact Or.inl ⟨_, rfl⟩
  | inArr hm hr => exact Or.inr ⟨_, rfl⟩

theorem reachKey_obj_inv {t : String} {fields : List (String × Json)} {v : Json}
    (h : ReachKey t (Json.obj fields) v) :
    ∃ k w, (k, w) ∈ fields ∧ ((normalize_key k = t ∧ w = v) ∨ ReachKey t w v) := by
  cases h with
  | here hm hn => exact ⟨_, _, hm, Or.inl ⟨hn, rfl⟩⟩
  | inObj hm hr => exact ⟨_, _, hm, Or.inr hr⟩

theorem reachKey_arr_inv {t : String} {items : List Json} {v : Json}
    (h : ReachKey t (Json.arr items) v) :
    ∃ x, x ∈ items ∧ ReachKey t x v := by
  cases h with
  | inArr hm hr => exact ⟨_, hm, hr⟩

theorem mem_recursive_search_iff (t : String) :
    (j : Json) → ∀ v, (v ∈ recursive_search t j ↔ ReachKey t j v)
  | Json.obj fields => by
    intro v
    rw [recursive_search, mem_searchFields_iff]
    constructor
    · rintro ⟨k, w, hm, (⟨hn, rfl⟩ | hr)⟩
      · exact ReachKey.here hm hn
      · have := (mem_recursive_search_iff t w v).mp hr
        exact ReachKey.inObj hm this
    · intro h
      rcases reachKey_obj_inv h with ⟨k, w, hm, (⟨hn, hw⟩ | hr)⟩
      · exact ⟨k, w, hm, Or.inl ⟨hn, hw⟩⟩
      · exact ⟨k, w, hm, Or.inr ((mem_recursive_search_iff t w v).mpr hr)⟩
  | Json.arr items => by
    intro v
    rw [recursive_search, mem_searchItems_iff]
    constructor
    · rintro ⟨x, hm, hx⟩
      exact ReachKey.inArr hm ((mem_recursive_search_iff t x v).mp hx)
    · intro h
      rcases reachKey_arr_inv h with ⟨x, hm, hr⟩
      exact ⟨x, hm, (mem_recursive_search_iff t x v).mpr hr⟩
  | Json.null => by intro v; simp only [recursive_search, List.not_mem_nil, false_iff]; intro h; rcases reachKey_shape h with ⟨fs, hf⟩ | ⟨xs, hf⟩ <;> simp at hf
  | Json.bool b => by intro v; simp only [recursive_search, List.not_mem_nil, false_iff]; intro h; rcases reachKey_shape h with ⟨fs, hf⟩ | ⟨xs, hf⟩ <;> simp at hf
  | Json.num q => by intro v; simp only [recursive_search, List.not_mem_nil, false_iff]; intro h; rcases reachKey_shape h with ⟨fs, hf⟩ | ⟨xs, hf⟩ <;> simp at hf
  | Json.str s => by intro v; simp only [recursive_search, List.not_mem_nil, false_iff]; intro h; rcases reachKey_shape h with ⟨fs, hf⟩ | ⟨xs, hf⟩ <;> simp at hf
termination_by j => sizeOf j
decreasing_by
  · exact sizeOf_lt_of_mem_fields hm
  · exact sizeOf_lt_of_mem_fields hm
  · exact sizeOf_lt_of_mem_items hm
  · exact sizeOf_lt_of_mem_items hm

/-- C5: for every JSON-like structure, `search_key` collects exactly the
values reachable at any depth under a key whose normalized form equals
the normalized target, recursing into nested mappings and sequences;
in particular, searching "Gross Pay" in `\x7b"a": [\x7b"Gross Pay": "100.50"\x7d]\x7d`
yields `["100.50"]`. -/
theorem C5_search_key_collects_reachable :
    (∀ (key : String) (j v : Json),
      v ∈ search_key key j ↔ ReachKey (normalize_key key) j v)
    ∧ search_key "Gross Pay"
        (Json.obj [("a", Json.arr [Json.obj [("Gross Pay", Json.str "100.50")]])])
        = [Json.str "100.50"] := by
  refine ⟨fun key j v => ?_, rfl⟩
  simpa [search_key] using mem_recursive_search_iff (normalize_key key) j v

theorem pyFloatOfClean_empty : pyFloatOfClean "" = none := rfl

theorem manualTotalGross_loop (vals : List String) : ∀ acc : ℚ,
    vals.foldl
      (fun acc gp =>
        let value := stripToNumChars gp
        if value ≠ "" then
          match pyFloatOfClean value with
          | some x => acc + x
          | none => acc
        else acc)
      acc
    = acc + (vals.filterMap (fun v => pyFloatOfClean (stripToNumChars v))).sum := by
  induction vals with
  | nil => intro acc; simp
  | cons v rest ih =>
    intro acc
    rw [List.foldl_cons, ih, List.filterMap_cons]
    by_cases hv : stripToNumChars v = ""
    · simp [hv, pyFloatOfClean_empty]
    · cases hp : pyFloatOfClean (stripToNumChars v) with
      | none => simp [hv, hp]
      | some x => simp [hv, hp]; ring

theorem manualTotalGross_eq (vals : List String) :
    manualTotalGross vals
      = (vals.filterMap (fun v => pyFloatOfClean (stripToNumChars v))).sum := by
  simpa [manualTotalGross] using manualTotalGross_loop vals 0

theorem C6_manual_total_sum :
    (∀ vals : List String,
      manualTotalGross vals
        = (vals.filterMap (fun v => pyFloatOfClean (stripToNumChars v))).sum)
    ∧ manualTotalGross ["£1,250.00", "abc", "-50.25", ""] = 1199.75 := by
  refine ⟨manualTotalGross_eq, ?_⟩
  rw [manualTotalGross_eq]
  have h1 : pyFloatOfClean (stripToNumChars "£1,250.00") = some (mkRat 125000 100) := by decide
  have h2 : pyFloatOfClean (stripToNumChars "abc") = none := by decide
  have h3 : pyFloatOfClean (stripToNumChars "-50.25") = some (mkRat (-5025) 100) := by decide
  have h4 : pyFloatOfClean (stripToNumChars "") = none := by decide
  simp only [List.filterMap_cons, List.filterMap_nil, h1, h2, h3, h4,
    List.sum_cons, List.sum_nil]
  rw [Rat.mkRat_eq_div, Rat.mkRat_eq_div]
  norm_num

theorem dictGet_dictSet_self : ∀ (d : List (String × Json)) (k : String) (v : Json),
    dictGet (dictSet d k v) k = some v
  | [], k, v => by simp [dictSet, dictGet]
  | (k0, w) :: rest, k, v => by
      by_cases hk : k0 = k
      · simp [dictSet, hk, dictGet]
      · simp [dictSet, hk, dictGet, dictGet_dictSet_self rest k v]

theorem dictGet_dictSet_ne : ∀ (d : List (String × Json)) {k k' : String} (v : Json),
    k' ≠ k → dictGet (dictSet d k v) k' = dictGet d k'
  | [], k, k', v, hne => by simp [dictSet, dictGet, Ne.symm hne]
  | (k0, w) :: rest, k, k', v, hne => by
      by_cases hk : k0 = k
      · subst hk
        simp [dictSet, dictGet, Ne.symm hne]
      · by_cases h0 : k0 = k'
        · subst h0; simp [dictSet, hk, dictGet]
        · simp [dictSet, hk, dictGet, h0, dictGet_dictSet_ne rest v hne]

theorem dictGet_dictPop_self : ∀ (d : List (String × Json)) (k : String),
    dictGet (dictPop d k) k = none
  | [], k => rfl
  | (k0, w) :: rest, k => by
      by_cases hk : k0 = k
      · simp [dictPop, hk, dictGet_dictPop_self rest k]
      · simp [dictPop, hk, dictGet, dictGet_dictPop_self rest k]

theorem dictGet_dictPop_ne : ∀ (d : List (String × Json)) {k k' : String},
    k' ≠ k → dictGet (dictPop d k) k' = dictGet d k'
  | [], k, k', _ => rfl
  | (k0, w) :: rest, k, k', hne => by
      by_cases hk : k0 = k
      · subst hk
        simp [dictPop, dictGet, Ne.symm hne, dictGet_dictPop_ne rest hne]
      · by_cases h0 : k0 = k'
        · subst h0; simp [dictPop, hk, dictGet]
        · simp [dictPop, hk, dictGet, h0, dictGet_dictPop_ne rest hne]

theorem dictPop_dictSet_self : ∀ (d : List (String × Json)) (k : String) (v : Json),
    dictPop (dictSet d k v) k = dictPop d k
  | [], k, v => by simp [dictSet, dictPop]
  | (k0, w) :: rest, k, v => by
      by_cases hk : k0 = k
      · simp [dictSet, hk, dictPop]
      · simp [dictSet, hk, dictPop, dictPop_dictSet_self rest k v]

theorem dictPop_dictSet_ne : ∀ (d : List (String × Json)) {k p : String} (v : Json),
    k ≠ p → dictPop (dictSet d k v) p = dictSet (dictPop d p) k v
  | [], k, p, v, hne => by simp [dictSet, dictPop, hne]
  | (k0, w) :: rest, k, p, v, hne => by
      by_cases hk : k0 = k
      · subst hk
        simp [dictSet, dictPop, hne]
      · by_cases hp : k0 = p
        · subst hp
          simp [dictSet, hk, dictPop, dictPop_dictSet_ne rest v hne]
        · simp [dictSet, hk, dictPop, hp, dictPop_dictSet_ne rest v hne]

theorem personNameOf_isOther {fs : List (String × Json)} {pn : String}
    (h : personNameOf fs = Except.ok pn) :
    isOtherRecord (Json.obj fs)
      = (pyLower (pyStrip pn) = "other" || pyLower (pyStrip pn) = "others") := by
  unfold personNameOf at h
  cases hg : dictGet fs "Person Name" with
  | none =>
      rw [hg] at h
      cases h
      simp [isOtherRecord, hg]
      decide
  | some v =>
      cases v with
      | str s =>
          rw [hg] at h
          cases h
          simp [isOtherRecord, hg]
      | null => rw [hg] at h; cases h
      | bool b => rw [hg] at h; cases h
      | num q => rw [hg] at h; cases h
      | arr xs => rw [hg] at h; cases h
      | obj gs => rw [hg] at h; cases h

theorem filterRecords_ok_shape : ∀ {a : String} {rs clean : List Json},
    filterRecords a rs = Except.ok clean → ∀ r ∈ rs, ∃ fs, r = Json.obj fs := by
  intro a rs
  induction rs with
  | nil => intro clean _ r hr; cases hr
  | cons r0 rest ih =>
    intro clean h r hr
    cases r0 with
    | obj fs =>
      rcases List.mem_cons.mp hr with rfl | hr
      · exact ⟨fs, rfl⟩
      · simp only [filterRecords] at h
        split at h
        · cases h
        · split at h
          · exact ih h r hr
          · split at h
            · cases h
            · next rest0 hrest => exact ih hrest r hr
    | null => simp [filterRecords] at h
    | bool b => simp [filterRecords] at h
    | num q => simp [filterRecords] at h
    | str s => simp [filterRecords] at h
    | arr xs => simp [filterRecords] at h

theorem filterRecords_ok_eq : ∀ {a : String} {rs clean : List Json},
    filterRecords a rs = Except.ok clean →
    clean = (rs.filter (fun r => !isOtherRecord r)).map (backfillAgency a) := by
  intro a rs
  induction rs with
  | nil => intro clean h; cases h; rfl
  | cons r0 rest ih =>
    intro clean h
    cases r0 with
    | obj fs =>
      simp only [filterRecords] at h
      split at h
      · cases h
      · rename_i pn hpn
        have hio := personNameOf_isOther hpn
        split at h
        · rename_i hb
          rw [ih h]
          simp [List.filter_cons, hio, hb]
        · rename_i hb
          split at h
          · cases h
          · rename_i rest0 hrest
            cases h
            rw [ih hrest]
            have hbf : (decide (pyLower (pyStrip pn) = "other")
                || decide (pyLower (pyStrip pn) = "others")) = false := by
              simpa using hb
            simp [List.filter_cons, hio, hbf]
    | null => simp [filterRecords] at h
    | bool b => simp [filterRecords] at h
    | num q => simp [filterRecords] at h
    | str s => simp [filterRecords] at h
    | arr xs => simp [filterRecords] at h

theorem isOtherRecord_backfill (a : String) (r : Json) :
    isOtherRecord (backfillAgency a r) = isOtherRecord r := by
  cases r with
  | obj fs =>
    simp only [backfillAgency]
    by_cases hf : jsonFalsy (dictGet fs "Agency") = true
    · rw [if_pos hf]
      simp only [isOtherRecord]
      rw [dictGet_dictSet_ne fs (Json.str a)
        (show "Person Name" ≠ "Agency" by decide)]
    · rw [if_neg hf]
  | null => rfl
  | bool b => rfl
  | num q => rfl
  | str s => rfl
  | arr xs => rfl

theorem processDoc_ok_inv {e out : Json} (h : processDoc e = Except.ok out) :
    ∃ fields items agency_name av abrest first crest ragency sf,
      e = Json.obj fields
      ∧ dictGet fields "records" = some (Json.arr items)
      ∧ dictGet fields "Agency Name" = some (Json.obj ((agency_name, av) :: abrest))
      ∧ ¬(normalize_key agency_name = "others")
      ∧ filterRecords agency_name items = Except.ok (first :: crest)
      ∧ realAgencyOf first = Except.ok ragency
      ∧ (dictGet ((agency_name, av) :: abrest) agency_name).getD (Json.obj []) = Json.obj sf
      ∧ out = Json.obj (dictSet
          (dictPop (dictSet fields "records" (Json.arr (first :: crest))) "Agency Name")
          ragency (Json.obj (dictSet sf "Manual Total Gross Pays"
            (Json.num (manualTotalGross
              ((search_key "Gross Pay" (Json.arr (first :: crest))).map pyStr)))))) := by
  unfold processDoc at h
  split at h
  · rename_i fields
    split at h
    · rename_i recsJ abJ ab hrec hab
      unfold afterValidation at h
      split at h
      · cases h
      · rename_i agency_name av0 abrest0
        split at h
        · cases h
        · rename_i hno
          split at h
          · rename_i items
            split at h
            · cases h
            · rename_i clean hclean
              split at h
              · cases h
              · rename_i first crest
                split at h
                · cases h
                · rename_i ragency hragency
                  split at h
                  · rename_i sf hsf
                    cases h
                    exact ⟨fields, items, agency_name, av0, abrest0, first, crest, ragency, sf,
                      rfl, hrec, hab, hno, hclean, hragency, hsf, rfl⟩
                  · cases h
          · cases h
    · cases h
    · cases h
  · cases h

theorem no_other_of_filter_ok {a : String} {rs clean : List Json}
    (h : filterRecords a rs = Except.ok clean) :
    ∀ r ∈ clean, isOtherRecord r = false := by
  intro r hr
  rw [filterRecords_ok_eq h] at hr
  rcases List.mem_map.mp hr with ⟨r0, hr0, rfl⟩
  rw [isOtherRecord_backfill]
  simpa using (List.mem_filter.mp hr0).2

/-- C2: the filter step keeps exactly the records whose person name does
not normalize to "other"/"others" (each with the agency back-fill
applied), no surviving record is such a record, and no such record
appears in the `records` list of any successfully processed document's
persisted output. -/
theorem C2_filter_removes_other_records (a : String) (rs clean : List Json)
    (h : filterRecords a rs = Except.ok clean) :
    clean = (rs.filter (fun r => !isOtherRecord r)).map (backfillAgency a)
    ∧ (∀ r ∈ clean, isOtherRecord r = false)
    ∧ (∀ e out ofields recs, processDoc e = Except.ok out → out = Json.obj ofields →
        dictGet ofields "records" = some (Json.arr recs) →
        ∀ r ∈ recs, isOtherRecord r = false) := by
  refine ⟨filterRecords_ok_eq h, no_other_of_filter_ok h, ?_⟩
  intro e out ofields recs hp hout hrec r hr
  obtain ⟨fields, items, an, av, abrest, first, crest, rag, sf,
    _, _, _, _, hcl, _, _, hout2⟩ := processDoc_ok_inv hp
  rw [hout2] at hout
  injection hout with hout
  subst hout
  by_cases hragr : rag = "records"
  · subst hragr
    rw [dictGet_dictSet_self] at hrec
    cases hrec
  · rw [dictGet_dictSet_ne _ _ (fun hh => hragr hh.symm),
      dictGet_dictPop_ne _ (show "records" ≠ "Agency Name" by decide),
      dictGet_dictSet_self] at hrec
    injection hrec with hrec
    injection hrec with hrec
    subst hrec
    exact no_other_of_filter_ok hcl r hr

/-- Witness for C2 at a concrete input: a record named " OTHERS " is
dropped, the record named "Alice" survives untouched. -/
theorem C2_filter_removes_other_records_witness :
    (filterRecords "Acme"
        [Json.obj [("Person Name", Json.str "Alice"), ("Agency", Json.str "Acme")],
         Json.obj [("Person Name", Json.str " OTHERS ")]]
      = Except.ok [Json.obj [("Person Name", Json.str "Alice"), ("Agency", Json.str "Acme")]])
    ∧ ([Json.obj [("Person Name", Json.str "Alice"), ("Agency", Json.str "Acme")]]
        = (([Json.obj [("Person Name", Json.str "Alice"), ("Agency", Json.str "Acme")],
            Json.obj [("Person Name", Json.str " OTHERS ")]].filter
              (fun r => !isOtherRecord r)).map (backfillAgency "Acme"))
      ∧ (∀ r ∈ [Json.obj [("Person Name", Json.str "Alice"), ("Agency", Json.str "Acme")]],
          isOtherRecord r = false)
      ∧ (∀ e out ofields recs, processDoc e = Except.ok out → out = Json.obj ofields →
          dictGet ofields "records" = some (Json.arr recs) →
          ∀ r ∈ recs, isOtherRecord r = false)) :=
  ⟨rfl, C2_filter_removes_other_records "Acme" _ _ rfl⟩

/-- C4 (amended): every record surviving the person-name filter carries
an agency field equal to the value the model supplied when that value
was truthy, and the resolved agency name otherwise; the field is
guaranteed non-falsy only when the resolved agency name is non-empty. -/
theorem C4_amended_agency_backfill (a : String) (rs clean : List Json)
    (h : filterRecords a rs = Except.ok clean) :
    (∀ r' ∈ clean, ∃ r, r ∈ rs ∧ r' = backfillAgency a r
      ∧ ((jsonFalsy (agencyValue r) = true ∧ agencyValue r' = some (Json.str a))
        ∨ (jsonFalsy (agencyValue r) = false ∧ agencyValue r' = agencyValue r)))
    ∧ (a ≠ "" → ∀ r' ∈ clean, jsonFalsy (agencyValue r') = false) := by
  have heq := filterRecords_ok_eq h
  constructor
  · intro r' hr'
    rw [heq] at hr'
    rcases List.mem_map.mp hr' with ⟨r0, hr0, rfl⟩
    have hmem := (List.mem_filter.mp hr0).1
    obtain ⟨fs, rfl⟩ := filterRecords_ok_shape h r0 hmem
    refine ⟨Json.obj fs, hmem, rfl, ?_⟩
    by_cases hf : jsonFalsy (dictGet fs "Agency") = true
    · left
      refine ⟨by simpa [agencyValue] using hf, ?_⟩
      simp only [backfillAgency, if_pos hf, agencyValue]
      exact dictGet_dictSet_self fs "Agency" (Json.str a)
    · right
      refine ⟨by simpa [agencyValue] using hf, ?_⟩
      simp only [backfillAgency, if_neg hf, agencyValue]
  · intro ha r' hr'
    rw [heq] at hr'
    rcases List.mem_map.mp hr' with ⟨r0, hr0, rfl⟩
    obtain ⟨fs, rfl⟩ := filterRecords_ok_shape h r0 (List.mem_filter.mp hr0).1
    by_cases hf : jsonFalsy (dictGet fs "Agency") = true
    · simp only [backfillAgency, if_pos hf, agencyValue]
      rw [dictGet_dictSet_self]
      simpa [jsonFalsy] using ha
    · simp only [backfillAgency, if_neg hf, agencyValue]
      simpa using hf

/-- Witness for the amended C4: a record with no agency field is
back-filled with the resolved agency name "Acme". -/
theorem C4_amended_agency_backfill_witness :
    (filterRecords "Acme" [Json.obj [("Person Name", Json.str "Bob")]]
      = Except.ok [Json.obj [("Person Name", Json.str "Bob"), ("Agency", Json.str "Acme")]])
    ∧ ((∀ r' ∈ [Json.obj [("Person Name", Json.str "Bob"), ("Agency", Json.str "Acme")]],
        ∃ r, r ∈ [Json.obj [("Person Name", Json.str "Bob")]] ∧ r' = backfillAgency "Acme" r
        ∧ ((jsonFalsy (agencyValue r) = true ∧ agencyValue r' = some (Json.str "Acme"))
          ∨ (jsonFalsy (agencyValue r) = false ∧ agencyValue r' = agencyValue r)))
      ∧ ("Acme" ≠ "" → ∀ r' ∈ [Json.obj [("Person Name", Json.str "Bob"), ("Agency", Json.str "Acme")]],
          jsonFalsy (agencyValue r') = false)) :=
  ⟨rfl, C4_amended_agency_backfill "Acme" _ _ rfl⟩

/-- Counterexample to C4 as stated: when the model's sole agency key is
the empty string (which does not normalize to "others"), a record
missing its agency is back-filled with the empty string, yet the
document still processes successfully because the check at line 160 of
json_creation only inspects the first record, whose own agency "Acme"
is non-empty. The persisted result thus contains a surviving record
whose "Agency" field is empty. -/
theorem C4_counterexample_empty_agency :
    processDoc (Json.obj
      [("records", Json.arr
          [Json.obj [("Person Name", Json.str "Alice"), ("Agency", Json.str "Acme")],
           Json.obj [("Person Name", Json.str "Bob")]]),
       ("Agency Name", Json.obj [("", Json.obj [])])])
      = Except.ok (Json.obj
        [("records", Json.arr
            [Json.obj [("Person Name", Json.str "Alice"), ("Agency", Json.str "Acme")],
             Json.obj [("Person Name", Json.str "Bob"), ("Agency", Json.str "")]]),
         ("Acme", Json.obj [("Manual Total Gross Pays", Json.num 0)])])
    ∧ agencyValue (Json.obj [("Person Name", Json.str "Bob"), ("Agency", Json.str "")])
        = some (Json.str "")
    ∧ jsonFalsy (agencyValue (Json.obj
        [("Person Name", Json.str "Bob"), ("Agency", Json.str "")])) = true :=
  ⟨rfl, rfl, rfl⟩

/-- C1 (amended): for every successfully processed document, the output
is the input dict with its `records` value replaced by the filtered
list, the `"Agency Name"` key popped, and the resolved summary (with
"Manual Total Gross Pays" added) stored under the real agency name; in
particular the filtered `records` array remains at the top level of the
persisted file (whenever the real agency name is not itself the string
"records"), and only the `"Agency Name"` key is dropped. -/
theorem C1_amended_records_retained (e out : Json) (h : processDoc e = Except.ok out) :
    ∃ fields items agency_name clean ragency summary,
      e = Json.obj fields
      ∧ dictGet fields "records" = some (Json.arr items)
      ∧ filterRecords agency_name items = Except.ok clean
      ∧ out = Json.obj (dictSet
          (dictPop (dictSet fields "records" (Json.arr clean)) "Agency Name")
          ragency (Json.obj summary))
      ∧ dictGet summary "Manual Total Gross Pays"
          = some (Json.num (manualTotalGross
              ((search_key "Gross Pay" (Json.arr clean)).map pyStr)))
      ∧ (∀ ofields, out = Json.obj ofields →
          dictGet ofields ragency = some (Json.obj summary)
          ∧ (ragency ≠ "records" → dictGet ofields "records" = some (Json.arr clean))
          ∧ (ragency ≠ "Agency Name" → dictGet ofields "Agency Name" = none)) := by
  obtain ⟨fields, items, an, av, abrest, first, crest, rag, sf,
    rfl, hrec, hab, hno, hcl, hrag, hsf, hout⟩ := processDoc_ok_inv h
  refine ⟨fields, items, an, first :: crest, rag,
    dictSet sf "Manual Total Gross Pays"
      (Json.num (manualTotalGross
        ((search_key "Gross Pay" (Json.arr (first :: crest))).map pyStr))),
    rfl, hrec, hcl, hout, dictGet_dictSet_self _ _ _, ?_⟩
  intro ofields hout2
  rw [hout] at hout2
  injection hout2 with hout2
  subst hout2
  refine ⟨dictGet_dictSet_self _ _ _, ?_, ?_⟩
  · intro hne
    rw [dictGet_dictSet_ne _ _ (Ne.symm hne),
      dictGet_dictPop_ne _ (show "records" ≠ "Agency Name" by decide),
      dictGet_dictSet_self]
  · intro hne
    rw [dictGet_dictSet_ne _ _ (Ne.symm hne), dictGet_dictPop_self]

/-- Witness for the amended C1 at a concrete document. -/
theorem C1_amended_records_retained_witness :
    (processDoc (Json.obj
        [("records", Json.arr
            [Json.obj [("Person Name", Json.str "Alice"), ("Agency", Json.str "Acme")]]),
         ("Agency Name", Json.obj [("Acme", Json.obj [("Total Gross Pay", Json.str "abc")])])])
      = Except.ok (Json.obj
        [("records", Json.arr
            [Json.obj [("Person Name", Json.str "Alice"), ("Agency", Json.str "Acme")]]),
         ("Acme", Json.obj [("Total Gross Pay", Json.str "abc"),
                            ("Manual Total Gross Pays", Json.num 0)])]))
    ∧ (∃ fields items agency_name clean ragency summary,
        (Json.obj
          [("records", Json.arr
              [Json.obj [("Person Name", Json.str "Alice"), ("Agency", Json.str "Acme")]]),
           ("Agency Name", Json.obj [("Acme", Json.obj [("Total Gross Pay", Json.str "abc")])])]
          : Json)
          = Json.obj fields
        ∧ dictGet fields "records" = some (Json.arr items)
        ∧ filterRecords agency_name items = Except.ok clean
        ∧ (Json.obj
            [("records", Json.arr
                [Json.obj [("Person Name", Json.str "Alice"), ("Agency", Json.str "Acme")]]),
             ("Acme", Json.obj [("Total Gross Pay", Json.str "abc"),
                                ("Manual Total Gross Pays", Json.num 0)])] : Json)
            = Json.obj (dictSet
              (dictPop (dictSet fields "records" (Json.arr clean)) "Agency Name")
              ragency (Json.obj summary))
        ∧ dictGet summary "Manual Total Gross Pays"
            = some (Json.num (manualTotalGross
                ((search_key "Gross Pay" (Json.arr clean)).map pyStr)))
        ∧ (∀ ofields,
            (Json.obj
              [("records", Json.arr
                  [Json.obj [("Person Name", Json.str "Alice"), ("Agency", Json.str "Acme")]]),
               ("Acme", Json.obj [("Total Gross Pay", Json.str "abc"),
                                  ("Manual Total Gross Pays", Json.num 0)])] : Json)
              = Json.obj ofields →
            dictGet ofields ragency = some (Json.obj summary)
            ∧ (ragency ≠ "records" → dictGet ofields "records" = some (Json.arr clean))
            ∧ (ragency ≠ "Agency Name" → dictGet ofields "Agency Name" = none))) :=
  ⟨rfl, C1_amended_records_retained _ _ rfl⟩

/-- Counterexample to C1 as stated: a successfully processed document
whose persisted output does contain the `records` key at top level —
the code pops `"Agency Name"` (json_creation line 164), not `records`. -/
theorem C1_counterexample_records_present :
    processDoc (Json.obj
      [("records", Json.arr
          [Json.obj [("Person Name", Json.str "Carol"), ("Agency", Json.str "Beta Corp")]]),
       ("Agency Name", Json.obj [("Beta Corp", Json.obj [("Fee", Json.str "5")])])])
      = Except.ok (Json.obj
        [("records", Json.arr
            [Json.obj [("Person Name", Json.str "Carol"), ("Agency", Json.str "Beta Corp")]]),
         ("Beta Corp", Json.obj [("Fee", Json.str "5"),
                                 ("Manual Total Gross Pays", Json.num 0)])])
    ∧ dictGet
        [("records", Json.arr
            [Json.obj [("Person Name", Json.str "Carol"), ("Agency", Json.str "Beta Corp")]]),
         ("Beta Corp", Json.obj [("Fee", Json.str "5"),
                                 ("Manual Total Gross Pays", Json.num 0)])]
        "records"
      = some (Json.arr
          [Json.obj [("Person Name", Json.str "Carol"), ("Agency", Json.str "Beta Corp")]]) :=
  ⟨rfl, rfl⟩

theorem create_JSON_loop_ok (model : String → Except String Json) :
    ∀ (files : List TxtFile) (acc : List (String × Json) × List (String × Json)),
    (∀ g ∈ files, ∃ t, g.content = Except.ok t) →
    create_JSON_loop model acc files
      = Except.ok (acc.1 ++ files.map (resultOf model),
                   acc.2 ++ files.filterMap (writeOf model)) := by
  intro files
  induction files with
  | nil => intro acc h; simp [create_JSON_loop]
  | cons f rest ih =>
    intro acc h
    obtain ⟨t, ht⟩ := h f (List.mem_cons_self f rest)
    have hrest : ∀ g ∈ rest, ∃ u, g.content = Except.ok u :=
      fun g hg => h g (List.mem_cons_of_mem f hg)
    cases hdo : docOutcome model t with
    | ok out =>
      simp only [create_JSON_loop, ht, hdo]
      rw [ih _ hrest]
      simp [resultOf, writeOf, ht, hdo, List.filterMap_cons]
    | error m =>
      simp only [create_JSON_loop, ht, hdo]
      rw [ih _ hrest]
      simp [resultOf, writeOf, ht, hdo, List.filterMap_cons]

theorem create_JSON_ok (model : String → Except String Json) (files : List TxtFile)
    (h : ∀ g ∈ files, ∃ t, g.content = Except.ok t) :
    create_JSON model files
      = Except.ok (files.map (resultOf model), files.filterMap (writeOf model)) := by
  simpa [create_JSON] using create_JSON_loop_ok model files ([], []) h

/-- Counterexample to C8 as stated: the transcript read (json_creation
lines 122-123) sits outside the per-document `try` block, so a read
failure on the second file aborts the whole batch — the first document's
result is not returned and the batch result is an uncaught exception,
not a mapping. -/
theorem C8_counterexample_read_aborts_batch :
    create_JSON (fun _ => Except.ok (Json.obj []))
      [⟨"a.txt", "a", Except.ok "text a"⟩,
       ⟨"b.txt", "b", Except.error "UnicodeDecodeError"⟩]
      = Except.error "UnicodeDecodeError" := rfl

/-- C8 (amended): provided every transcript read succeeds, any failure
from the model round-trip or any later per-document step is caught per
document: the batch returns one entry per file, in order, holding
either the document's full structured result or the error marker with
that document's exception message, and the written files are exactly
those of the successful documents. -/
theorem C8_amended_per_document_isolation (model : String → Except String Json)
    (files : List TxtFile)
    (h : ∀ g ∈ files, ∃ t, g.content = Except.ok t) :
    create_JSON model files
      = Except.ok (files.map (resultOf model), files.filterMap (writeOf model))
    ∧ ∀ f ∈ files, ∀ t, f.content = Except.ok t →
        resultOf model f = (f.name,
          match docOutcome model t with
          | Except.ok out => out
          | Except.error m => errorMarker m) := by
  refine ⟨create_JSON_ok model files h, ?_⟩
  intro f _ t ht
  cases hdo : docOutcome model t with
  | ok out => simp [resultOf, ht, hdo]
  | error m => simp [resultOf, ht, hdo]

/-- Witness for the amended C8: a one-good-one-bad batch where the bad
document's model response is malformed; both files still get entries. -/
theorem C8_amended_per_document_isolation_witness :
    (∀ g ∈ [(⟨"a.txt", "a", Except.ok "good"⟩ : TxtFile),
            ⟨"b.txt", "b", Except.ok "bad"⟩], ∃ t, g.content = Except.ok t)
    ∧ (create_JSON
        (fun t => if t = "bad" then Except.error "Failed to parse valid JSON"
          else Except.ok (Json.obj
            [("records", Json.arr
                [Json.obj [("Person Name", Json.str "Ann"), ("Agency", Json.str "Acme")]]),
             ("Agency Name", Json.obj [("Acme", Json.obj [])])]))
        [⟨"a.txt", "a", Except.ok "good"⟩, ⟨"b.txt", "b", Except.ok "bad"⟩]
      = Except.ok
          ([(⟨"a.txt", "a", Except.ok "good"⟩ : TxtFile),
            ⟨"b.txt", "b", Except.ok "bad"⟩].map
            (resultOf (fun t => if t = "bad" then Except.error "Failed to parse valid JSON"
              else Except.ok (Json.obj
                [("records", Json.arr
                    [Json.obj [("Person Name", Json.str "Ann"), ("Agency", Json.str "Acme")]]),
                 ("Agency Name", Json.obj [("Acme", Json.obj [])])]))),
           [(⟨"a.txt", "a", Except.ok "good"⟩ : TxtFile),
            ⟨"b.txt", "b", Except.ok "bad"⟩].filterMap
            (writeOf (fun t => if t = "bad" then Except.error "Failed to parse valid JSON"
              else Except.ok (Json.obj
                [("records", Json.arr
                    [Json.obj [("Person Name", Json.str "Ann"), ("Agency", Json.str "Acme")]]),
                 ("Agency Name", Json.obj [("Acme", Json.obj [])])]))))
      ∧ ∀ f ∈ [(⟨"a.txt", "a", Except.ok "good"⟩ : TxtFile),
               ⟨"b.txt", "b", Except.ok "bad"⟩], ∀ t, f.content = Except.ok t →
          resultOf (fun t => if t = "bad" then Except.error "Failed to parse valid JSON"
            else Except.ok (Json.obj
              [("records", Json.arr
                  [Json.obj [("Person Name", Json.str "Ann"), ("Agency", Json.str "Acme")]]),
               ("Agency Name", Json.obj [("Acme", Json.obj [])])])) f
            = (f.name,
              match docOutcome (fun t => if t = "bad" then Except.error "Failed to parse valid JSON"
                else Except.ok (Json.obj
                  [("records", Json.arr
                      [Json.obj [("Person Name", Json.str "Ann"), ("Agency", Json.str "Acme")]]),
                   ("Agency Name", Json.obj [("Acme", Json.obj [])])])) t with
              | Except.ok out => out
              | Except.error m => errorMarker m)) := by
  refine ⟨?_, C8_amended_per_document_isolation _ _ ?_⟩
  all_goals
    intro g hg
    simp only [List.mem_cons, List.not_mem_nil, or_false] at hg
    rcases hg with rfl | rfl
    · exact ⟨"good", rfl⟩
    · exact ⟨"bad", rfl⟩

/-- C3: when the sole key of the model's "Agency Name" mapping
normalizes to "others", that document fails with the descriptive
ValueError message, contributes an error entry (and no output file) to
the batch, and the rest of the batch is still processed. -/
theorem C3_others_agency_fails (fields : List (String × Json)) (recsJ v : Json)
    (k : String)
    (hrec : dictGet fields "records" = some recsJ)
    (hab : dictGet fields "Agency Name" = some (Json.obj [(k, v)]))
    (hk : normalize_key k = "others") :
    processDoc (Json.obj fields)
      = Except.error "Agency name was extracted as 'Others', which is not allowed."
    ∧ (∀ (model : String → Except String Json) (files : List TxtFile)
        (t : String) (f : TxtFile),
        (∀ g ∈ files, ∃ u, g.content = Except.ok u) →
        f ∈ files → f.content = Except.ok t →
        model t = Except.ok (Json.obj fields) →
        create_JSON model files
          = Except.ok (files.map (resultOf model), files.filterMap (writeOf model))
        ∧ resultOf model f
            = (f.name, errorMarker "Agency name was extracted as 'Others', which is not allowed.")
        ∧ writeOf model f = none) := by
  have hfail : processDoc (Json.obj fields)
      = Except.error "Agency name was extracted as 'Others', which is not allowed." := by
    simp [processDoc, hrec, hab, afterValidation, hk]
  refine ⟨hfail, ?_⟩
  intro model files t f hall _ hft hmodel
  refine ⟨create_JSON_ok model files hall, ?_, ?_⟩
  · simp [resultOf, hft, docOutcome, hmodel, hfail]
  · simp [writeOf, hft, docOutcome, hmodel, hfail]

/-- Witness for C3: a response whose only agency key is "Others". -/
theorem C3_others_agency_fails_witness :
    (dictGet [("records", Json.arr []),
              ("Agency Name", Json.obj [("Others", Json.obj [])])] "records"
        = some (Json.arr []))
    ∧ (dictGet [("records", Json.arr []),
                ("Agency Name", Json.obj [("Others", Json.obj [])])] "Agency Name"
        = some (Json.obj [("Others", Json.obj [])]))
    ∧ normalize_key "Others" = "others"
    ∧ (processDoc (Json.obj [("records", Json.arr []),
          ("Agency Name", Json.obj [("Others", Json.obj [])])])
        = Except.error "Agency name was extracted as 'Others', which is not allowed."
      ∧ (∀ (model : String → Except String Json) (files : List TxtFile)
          (t : String) (f : TxtFile),
          (∀ g ∈ files, ∃ u, g.content = Except.ok u) →
          f ∈ files → f.content = Except.ok t →
          model t = Except.ok (Json.obj [("records", Json.arr []),
            ("Agency Name", Json.obj [("Others", Json.obj [])])]) →
          create_JSON model files
            = Except.ok (files.map (resultOf model), files.filterMap (writeOf model))
          ∧ resultOf model f
              = (f.name, errorMarker "Agency name was extracted as 'Others', which is not allowed.")
          ∧ writeOf model f = none)) :=
  ⟨rfl, rfl, rfl, C3_others_agency_fails _ _ _ _ rfl rfl rfl⟩

/-- C9: when the record list is empty after the person-name filter, the
read of `entities["records"][0]` raises IndexError; the document fails,
contributes an error entry and no output file, and the batch
continues. -/
theorem C9_empty_filtered_records_fails (fields : List (String × Json))
    (items : List Json) (k : String) (v : Json) (abrest : List (String × Json))
    (hrec : dictGet fields "records" = some (Json.arr items))
    (hab : dictGet fields "Agency Name" = some (Json.obj ((k, v) :: abrest)))
    (hk : ¬(normalize_key k = "others"))
    (hfil : filterRecords k items = Except.ok []) :
    processDoc (Json.obj fields) = Except.error "list index out of range"
    ∧ (∀ (model : String → Except String Json) (files : List TxtFile)
        (t : String) (f : TxtFile),
        (∀ g ∈ files, ∃ u, g.content = Except.ok u) →
        f ∈ files → f.content = Except.ok t →
        model t = Except.ok (Json.obj fields) →
        create_JSON model files
          = Except.ok (files.map (resultOf model), files.filterMap (writeOf model))
        ∧ resultOf model f = (f.name, errorMarker "list index out of range")
        ∧ writeOf model f = none) := by
  have hfail : processDoc (Json.obj fields) = Except.error "list index out of range" := by
    simp [processDoc, hrec, hab, afterValidation, hk, hfil]
  refine ⟨hfail, ?_⟩
  intro model files t f hall _ hft hmodel
  refine ⟨create_JSON_ok model files hall, ?_, ?_⟩
  · simp [resultOf, hft, docOutcome, hmodel, hfail]
  · simp [writeOf, hft, docOutcome, hmodel, hfail]

/-- Witness for C9: the model returned only a record named "Other", so
the filtered list is empty. -/
theorem C9_empty_filtered_records_fails_witness :
    (dictGet [("records", Json.arr [Json.obj [("Person Name", Json.str "Other")]]),
              ("Agency Name", Json.obj [("Acme", Json.obj [])])] "records"
        = some (Json.arr [Json.obj [("Person Name", Json.str "Other")]]))
    ∧ (dictGet [("records", Json.arr [Json.obj [("Person Name", Json.str "Other")]]),
                ("Agency Name", Json.obj [("Acme", Json.obj [])])] "Agency Name"
        = some (Json.obj [("Acme", Json.obj [])]))
    ∧ ¬(normalize_key "Acme" = "others")
    ∧ filterRecords "Acme" [Json.obj [("Person Name", Json.str "Other")]] = Except.ok []
    ∧ (processDoc (Json.obj [("records", Json.arr [Json.obj [("Person Name", Json.str "Other")]]),
          ("Agency Name", Json.obj [("Acme", Json.obj [])])])
        = Except.error "list index out of range"
      ∧ (∀ (model : String → Except String Json) (files : List TxtFile)
          (t : String) (f : TxtFile),
          (∀ g ∈ files, ∃ u, g.content = Except.ok u) →
          f ∈ files → f.content = Except.ok t →
          model t = Except.ok (Json.obj
            [("records", Json.arr [Json.obj [("Person Name", Json.str "Other")]]),
             ("Agency Name", Json.obj [("Acme", Json.obj [])])]) →
          create_JSON model files
            = Except.ok (files.map (resultOf model), files.filterMap (writeOf model))
          ∧ resultOf model f = (f.name, errorMarker "list index out of range")
          ∧ writeOf model f = none)) :=
  ⟨rfl, rfl, by decide, rfl,
    C9_empty_filtered_records_fails _ _ _ _ _ rfl rfl (by decide) rfl⟩

theorem afterValidation_first_key (fields : List (String × Json)) (recsJ : Json)
    (k1 : String) (v1 : Json) (abrest : List (String × Json)) :
    afterValidation fields recsJ ((k1, v1) :: abrest)
      = afterValidation (dictSet fields "Agency Name" (Json.obj [(k1, v1)]))
          recsJ [(k1, v1)] := by
  by_cases hk : normalize_key k1 = "others"
  · simp [afterValidation, hk]
  · cases recsJ with
    | arr items =>
      simp only [afterValidation, if_neg hk]
      cases hfil : filterRecords k1 items with
      | error m => simp [hfil]
      | ok clean =>
        simp only [hfil]
        cases clean with
        | nil => rfl
        | cons first crest =>
          cases hrag : realAgencyOf first with
          | error m => simp [hrag]
          | ok ragency =>
            simp only [hrag, dictGet, if_true]
            cases v1 with
            | obj sf =>
              simp only [Option.getD_some]
              rw [dictPop_dictSet_ne _ _ (show "records" ≠ "Agency Name" by decide),
                dictPop_dictSet_ne _ _ (show "records" ≠ "Agency Name" by decide),
                dictPop_dictSet_self]
            | null => rfl
            | bool b => rfl
            | num q => rfl
            | str s => rfl
            | arr xs => rfl
    | null => simp [afterValidation, hk]
    | bool b => simp [afterValidation, hk]
    | num q => simp [afterValidation, hk]
    | str s => simp [afterValidation, hk]
    | obj gs => simp [afterValidation, hk]

/-- C10: when the "Agency Name" mapping has more than one key, only the
first key (in insertion order) matters: processing the document is
identical to processing it with the mapping truncated to its first
entry — every other key and its summary value are discarded. -/
theorem C10_only_first_agency_key_used (fields : List (String × Json))
    (k1 : String) (v1 : Json) (abrest : List (String × Json))
    (hab : dictGet fields "Agency Name" = some (Json.obj ((k1, v1) :: abrest))) :
    processDoc (Json.obj fields)
      = processDoc (Json.obj (dictSet fields "Agency Name" (Json.obj [(k1, v1)]))) := by
  have hrec' : dictGet (dictSet fields "Agency Name" (Json.obj [(k1, v1)])) "records"
      = dictGet fields "records" :=
    dictGet_dictSet_ne fields _ (show "records" ≠ "Agency Name" by decide)
  have hab' : dictGet (dictSet fields "Agency Name" (Json.obj [(k1, v1)])) "Agency Name"
      = some (Json.obj [(k1, v1)]) := dictGet_dictSet_self fields _ _
  cases hrec : dictGet fields "records" with
  | none => simp [processDoc, hrec, hab, hrec', hab']
  | some recsJ =>
    simp only [processDoc, hrec, hab, hrec', hab']
    exact afterValidation_first_key fields recsJ k1 v1 abrest

/-- Witness for C10: a response carrying two agency keys processes
exactly as if only the first were present. -/
theorem C10_only_first_agency_key_used_witness :
    (dictGet [("records", Json.arr
          [Json.obj [("Person Name", Json.str "Ann"), ("Agency", Json.str "Acme")]]),
       ("Agency Name", Json.obj [("Acme", Json.obj [("Fee", Json.str "1")]),
                                 ("Zeta", Json.obj [("Fee", Json.str "9")])])] "Agency Name"
      = some (Json.obj [("Acme", Json.obj [("Fee", Json.str "1")]),
                        ("Zeta", Json.obj [("Fee", Json.str "9")])]))
    ∧ processDoc (Json.obj
        [("records", Json.arr
            [Json.obj [("Person Name", Json.str "Ann"), ("Agency", Json.str "Acme")]]),
         ("Agency Name", Json.obj [("Acme", Json.obj [("Fee", Json.str "1")]),
                                   ("Zeta", Json.obj [("Fee", Json.str "9")])])])
      = processDoc (Json.obj (dictSet
          [("records", Json.arr
              [Json.obj [("Person Name", Json.str "Ann"), ("Agency", Json.str "Acme")]]),
           ("Agency Name", Json.obj [("Acme", Json.obj [("Fee", Json.str "1")]),
                                     ("Zeta", Json.obj [("Fee", Json.str "9")])])]
          "Agency Name" (Json.obj [("Acme", Json.obj [("Fee", Json.str "1")])]))) :=
  ⟨rfl, C10_only_first_agency_key_used _ _ _ _ rfl⟩

/-- C7: `extract_text` dispatches on the lowercased extension and yields
the empty string for any unsupported extension; `perform_OCR` writes
`<stem>.txt` exactly for the regular files whose extracted text is
non-empty; a directory of one regular `.png`, one `.pdf` and one `.csv`,
with the supported extractions non-empty, yields exactly two files. -/
theorem C7_dispatch_and_conditional_writes :
    (∀ (img pdf xls : SrcFile → String) (f : SrcFile),
      pyLower f.suffix ∉ [".png", ".jpg", ".jpeg", ".pdf", ".xls", ".xlsx"] →
      extract_text img pdf xls f = "")
    ∧ (∀ (img pdf xls : SrcFile → String) (files : List SrcFile) (s t : String),
        (s, t) ∈ perform_OCR img pdf xls files ↔
          ∃ f ∈ files, f.isFile = true ∧ extract_text img pdf xls f = t ∧ t ≠ ""
            ∧ s = f.stem ++ ".txt")
    ∧ (∀ (img pdf xls : SrcFile → String) (p q c : SrcFile),
        pyLower p.suffix = ".png" → pyLower q.suffix = ".pdf" → pyLower c.suffix = ".csv" →
        p.isFile = true → q.isFile = true → c.isFile = true →
        img p ≠ "" → pdf q ≠ "" →
        perform_OCR img pdf xls [p, q, c]
          = [(p.stem ++ ".txt", img p), (q.stem ++ ".txt", pdf q)]) := by
  refine ⟨?_, ?_, ?_⟩
  · intro img pdf xls f h
    simp only [List.mem_cons, List.not_mem_nil, or_false, not_or] at h
    obtain ⟨h1, h2, h3, h4, h5, h6⟩ := h
    simp [extract_text, h1, h2, h3, h4, h5, h6]
  · intro img pdf xls files s t
    simp only [perform_OCR, List.mem_filterMap]
    constructor
    · rintro ⟨f, hf, hsome⟩
      by_cases hisf : f.isFile = true
      · rw [if_pos hisf] at hsome
        by_cases hraw : extract_text img pdf xls f ≠ ""
        · rw [if_pos hraw] at hsome
          injection hsome with hsome
          cases hsome
          exact ⟨f, hf, hisf, rfl, hraw, rfl⟩
        · rw [if_neg hraw] at hsome
          cases hsome
      · rw [if_neg hisf] at hsome
        cases hsome
    · rintro ⟨f, hf, hisf, hext, hne, rfl⟩
      refine ⟨f, hf, ?_⟩
      rw [if_pos hisf, if_pos (by rw [hext]; exact hne), hext]
  · intro img pdf xls p q c hp hq hc hpf hqf hcf himg hpdf
    simp [perform_OCR, extract_text, hp, hq, hc, hpf, hqf, hcf, himg, hpdf]

/-- Witness for C7: a png/pdf/csv directory with non-empty supported
extractions produces exactly the two expected `.txt` files. -/
theorem C7_dispatch_and_conditional_writes_witness :
    pyLower (SrcFile.mk "scan" ".png" true).suffix = ".png"
    ∧ pyLower (SrcFile.mk "doc" ".pdf" true).suffix = ".pdf"
    ∧ pyLower (SrcFile.mk "table" ".csv" true).suffix = ".csv"
    ∧ (SrcFile.mk "scan" ".png" true).isFile = true
    ∧ (SrcFile.mk "doc" ".pdf" true).isFile = true
    ∧ (SrcFile.mk "table" ".csv" true).isFile = true
    ∧ ((fun _ => "IMG") : SrcFile → String) (SrcFile.mk "scan" ".png" true) ≠ ""
    ∧ ((fun _ => "PDF") : SrcFile → String) (SrcFile.mk "doc" ".pdf" true) ≠ ""
    ∧ perform_OCR (fun _ => "IMG") (fun _ => "PDF") (fun _ => "XLS")
        [SrcFile.mk "scan" ".png" true, SrcFile.mk "doc" ".pdf" true,
         SrcFile.mk "table" ".csv" true]
      = [("scan" ++ ".txt", "IMG"), ("doc" ++ ".txt", "PDF")] :=
  ⟨rfl, rfl, rfl, rfl, rfl, rfl, by decide, by decide,
    C7_dispatch_and_conditional_writes.2.2 _ _ _ _ _ _
      rfl rfl rfl rfl rfl rfl (by decide) (by decide)⟩
